/-
Verification of the digital-campus-network chat subsystem.

The definitions below are a shallow embedding of the repository's code:
* the SQL schema, row-level-security policies and triggers from the
  migration files (tables `chat_rooms`, `chat_participants`, `messages`,
  `message_reads`, `connections`; helper functions
  `user_can_access_chat_room` and `is_open_or_campus_room`; the trigger
  `create_dm_chat_room`);
* the client operations from the React components: `handleSend`,
  `loadMessages` and the realtime insert handler (ChatInterface),
  `handleMessage`'s direct-room scan (ProfileView), `initializeCampusChat`
  (CampusChat), `handleConnect` / `handleAccept` (ProfileView/Connections),
  and the read-receipt insert.

UUIDs are modelled as `Nat` drawn from a `nextId` counter, timestamps are
dropped (list order stands in for `created_at` ascending order), and the
storage / realtime collaborators are passed in as explicit parameters.
-/
import Mathlib

set_option maxRecDepth 4000

namespace DCN

/-- Room types from the `chat_rooms.type` check constraint
(`'campus' | 'open' | 'direct'` after migration 20251106154651). -/
inductive RoomType
  | campus
  | «open»
  | direct
deriving DecidableEq

/-- A row of `chat_rooms` (id, name, type, created_by). -/
structure ChatRoom where
  id : Nat
  name : Option String
  type : RoomType
  created_by : Option Nat
deriving DecidableEq

/-- A row of `chat_participants` (UNIQUE(chat_room_id, user_id)); the
surrogate id and joined_at timestamp are dropped. -/
structure ChatParticipant where
  chat_room_id : Nat
  user_id : Nat
deriving DecidableEq

/-- A row of `messages`. -/
structure Message where
  id : Nat
  chat_room_id : Nat
  sender_id : Nat
  content : String
  file_url : Option String
deriving DecidableEq

/-- A row of `message_reads` (UNIQUE(message_id, user_id)); surrogate id
and read_at timestamp dropped. -/
structure MessageRead where
  message_id : Nat
  user_id : Nat
deriving DecidableEq

/-- Check constraint values of connections.status. -/
inductive ConnStatus
  | pending
  | accepted
  | rejected
deriving DecidableEq

/-- A row of `connections` (UNIQUE(requester_id, receiver_id)). -/
structure Connection where
  id : Nat
  requester_id : Nat
  receiver_id : Nat
  status : ConnStatus
deriving DecidableEq

/-- The relational store: the five chat tables plus a fresh-id counter
standing in for `gen_random_uuid()`. -/
structure DB where
  chat_rooms : List ChatRoom
  chat_participants : List ChatParticipant
  messages : List Message
  message_reads : List MessageRead
  connections : List Connection
  nextId : Nat
deriving DecidableEq

def emptyDB : DB := ⟨[], [], [], [], [], 0⟩

/-- SQL function `public.user_can_access_chat_room(_user_id, _room_id)`:
`EXISTS (SELECT 1 FROM chat_participants WHERE chat_room_id = _room_id AND
user_id = _user_id)`. -/
def user_can_access_chat_room (db : DB) (uid rid : Nat) : Bool :=
  db.chat_participants.any (fun p => decide (p.chat_room_id = rid ∧ p.user_id = uid))

/-- SQL function `public.is_open_or_campus_room(_room_id)`:
`EXISTS (SELECT 1 FROM chat_rooms WHERE id = _room_id AND type IN
('campus', 'open'))`. -/
def is_open_or_campus_room (db : DB) (rid : Nat) : Bool :=
  db.chat_rooms.any
    (fun r => decide (r.id = rid ∧ (r.type = RoomType.campus ∨ r.type = RoomType.«open»)))

/-- RLS policy "Users can view messages" (migration 20251107022232) as a
per-row predicate: `is_open_or_campus_room(chat_room_id) OR
user_can_access_chat_room(auth.uid(), chat_room_id)`. -/
def canViewMessage (db : DB) (uid : Nat) (m : Message) : Bool :=
  is_open_or_campus_room db m.chat_room_id || user_can_access_chat_room db uid m.chat_room_id

/-- WITH CHECK of RLS policy "Users can send messages": the client always
inserts `sender_id = auth.uid()`, leaving the room-access disjunction. -/
def canSendMessage (db : DB) (uid rid : Nat) : Bool :=
  is_open_or_campus_room db rid || user_can_access_chat_room db uid rid

/-- The `messages` select of `loadMessages` (ChatInterface): rows with
`chat_room_id = rid`, filtered by the "Users can view messages" RLS
policy, ordered by `created_at` ascending (list order). -/
def listMessages (db : DB) (rid uid : Nat) : List Message :=
  db.messages.filter
    (fun m => decide (m.chat_room_id = rid) && canViewMessage db uid m)

/-- Raw INSERT into `message_reads`: the UNIQUE(message_id, user_id)
constraint rejects duplicates with an error; the WITH CHECK
(`auth.uid() = user_id`) of policy "Users can mark messages as read" is
satisfied because the client always inserts its own user id. -/
def message_reads_insert (db : DB) (mid uid : Nat) : Except String DB :=
  if db.message_reads.any (fun r => decide (r.message_id = mid ∧ r.user_id = uid)) then
    Except.error "duplicate key value violates unique constraint"
  else
    Except.ok { db with message_reads := db.message_reads ++ [⟨mid, uid⟩] }

/-- The client-side read-receipt insert (`supabase.from('message_reads')
.insert(...)` in ChatInterface): the result is never inspected, so a
constraint failure leaves the store unchanged and surfaces nothing. -/
def markRead (db : DB) (mid uid : Nat) : DB :=
  match message_reads_insert db mid uid with
  | Except.ok db2 => db2
  | Except.error _ => db

/-- RLS policy "Users can view read receipts for accessible messages":
a receipt row is visible to `uid` iff some message with that id lies in
a room where `uid` is a participant. -/
def receiptVisible (db : DB) (uid : Nat) (r : MessageRead) : Bool :=
  db.messages.any
    (fun m => decide (m.id = r.message_id) && user_can_access_chat_room db uid m.chat_room_id)

/-- The `reads:message_reads(user_id)` embed of `loadMessages` for one
message: receipts for that message that the viewer may select. -/
def visibleReadsFor (db : DB) (uid mid : Nat) : List MessageRead :=
  db.message_reads.filter
    (fun r => decide (r.message_id = mid) && receiptVisible db uid r)

/-- Client loadMessages (ChatInterface): select the room's messages with their
visible receipts, then insert a read receipt for every message not sent
by the viewer and lacking a receipt from the viewer.  Returns the listed
messages and the store after the receipt inserts. -/
def loadMessages (db : DB) (rid uid : Nat) : List Message × DB :=
  let data := listMessages db rid uid
  let unreadMessages := data.filter
    (fun m => decide (m.sender_id ≠ uid)
      && !((visibleReadsFor db uid m.id).any (fun r => decide (r.user_id = uid))))
  (data, unreadMessages.foldl (fun acc m => markRead acc m.id uid) db)

/-- The `postgres_changes` INSERT handler of `subscribeToMessages`
(ChatInterface): refetch the new message by id (RLS-filtered `.single()`),
and mark it read when it was sent by someone else. -/
def onMessageInsert (db : DB) (uid mid : Nat) : DB :=
  match db.messages.find? (fun m => decide (m.id = mid) && canViewMessage db uid m) with
  | some m => if m.sender_id ≠ uid then markRead db m.id uid else db
  | none => db

/-- Allow-list ALLOWED_FILE_TYPES (ChatInterface). -/
def ALLOWED_FILE_TYPES : List String :=
  ["image/jpeg", "image/png", "image/gif", "image/webp", "application/pdf"]

/-- Constant MAX_FILE_SIZE, 10 * 1024 * 1024 bytes (10MB, ChatInterface). -/
def MAX_FILE_SIZE : Nat := 10 * 1024 * 1024

/-- Constant MAX_MESSAGE_LENGTH, 5000 characters (ChatInterface). -/
def MAX_MESSAGE_LENGTH : Nat := 5000

/-- Zod messageSchema.safeParse succeeds iff the content is at most
`MAX_MESSAGE_LENGTH` characters (`z.string().max(MAX_MESSAGE_LENGTH)`). -/
def messageSchemaCheck (content : String) : Bool :=
  decide (content.length ≤ MAX_MESSAGE_LENGTH)

/-- JavaScript `String.prototype.trim()`: drop leading and trailing
whitespace.  (Structurally recursive model of `newMessage.trim()`.) -/
def trimString (s : String) : String :=
  String.mk (((s.data.dropWhile Char.isWhitespace).reverse.dropWhile Char.isWhitespace).reverse)

/-- The selected file of a send: declared name, declared MIME type, size
in bytes. -/
structure FileData where
  name : String
  type : String
  size : Nat
deriving DecidableEq

/-- Outcome of one `handleSend` call, matching its early returns and
toasts. -/
inductive SendResult
  | noop
  | invalidMessage
  | invalidFileType
  | fileTooLarge
  | uploadFailed
  | urlFailed
  | insertError
  | sent
deriving DecidableEq

/-- Raw INSERT into `messages`, gated by the WITH CHECK of policy
"Users can send messages". -/
def messages_insert (db : DB) (rid uid : Nat) (content : String)
    (fileUrl : Option String) : Except String DB :=
  if canSendMessage db uid rid then
    Except.ok { db with
      messages := db.messages ++ [⟨db.nextId, rid, uid, content, fileUrl⟩],
      nextId := db.nextId + 1 }
  else
    Except.error "new row violates row-level security policy"

/-- Client handleSend (ChatInterface).  The storage collaborator is passed in:
`uploadOk` is the result of `storage.upload`, `signedUrl` the result of
`createSignedUrl` (`none` when it fails or returns no url).  Steps, in
source order: bail out when the trimmed content is empty and no file is
selected; validate content length; if a file is selected validate its
MIME type then its size, upload it and create a signed url; finally
insert the message row, whose content is the message text, or the
placeholder "Shared a file: " plus the file name when the text is the
empty string and a file is present. -/
def handleSend (db : DB) (rid uid : Nat) (newMessage : String)
    (file : Option FileData) (uploadOk : Bool) (signedUrl : Option String) :
    SendResult × DB :=
  if trimString newMessage = "" ∧ file = none then (SendResult.noop, db)
  else if ¬ messageSchemaCheck newMessage = true then (SendResult.invalidMessage, db)
  else
    match file with
    | some f =>
      if ¬ f.type ∈ ALLOWED_FILE_TYPES then (SendResult.invalidFileType, db)
      else if f.size > MAX_FILE_SIZE then (SendResult.fileTooLarge, db)
      else if ¬ uploadOk = true then (SendResult.uploadFailed, db)
      else
        match signedUrl with
        | none => (SendResult.urlFailed, db)
        | some u =>
          match messages_insert db rid uid
              (if newMessage ≠ "" then newMessage else "Shared a file: " ++ f.name)
              (some u) with
          | Except.ok db2 => (SendResult.sent, db2)
          | Except.error _ => (SendResult.insertError, db)
    | none =>
      match messages_insert db rid uid newMessage none with
      | Except.ok db2 => (SendResult.sent, db2)
      | Except.error _ => (SendResult.insertError, db)

/-- The room scan of `handleMessage` (ProfileView): select
`chat_participants` rows of the current user (inner-joined to
`chat_rooms`, which only requires the room row to exist — the query has
no filter on `type`), then return the first room having exactly two
participants one of which is the target user. -/
def findDirectRoom (db : DB) (uid otherId : Nat) : Option Nat :=
  let chatRoomsOfUser := db.chat_participants.filter
    (fun p => decide (p.user_id = uid)
      && db.chat_rooms.any (fun r => decide (r.id = p.chat_room_id)))
  (chatRoomsOfUser.find? (fun p =>
    let participants := db.chat_participants.filter
      (fun q => decide (q.chat_room_id = p.chat_room_id))
    decide (participants.length = 2)
      && participants.any (fun q => decide (q.user_id = otherId)))).map
    (fun p => p.chat_room_id)

/-- Raw INSERT into `connections` with its UNIQUE(requester_id,
receiver_id) constraint; status defaults to `'pending'`. -/
def connections_insert (db : DB) (requester receiver : Nat) : Except String DB :=
  if db.connections.any
      (fun c => decide (c.requester_id = requester ∧ c.receiver_id = receiver)) then
    Except.error "duplicate key value violates unique constraint"
  else
    Except.ok { db with
      connections := db.connections ++ [⟨db.nextId, requester, receiver, ConnStatus.pending⟩],
      nextId := db.nextId + 1 }

/-- Client handleConnect (ProfileView): insert a pending connection request;
on error only a toast is shown and the store is unchanged. -/
def handleConnect (db : DB) (requester receiver : Nat) : DB :=
  match connections_insert db requester receiver with
  | Except.ok db2 => db2
  | Except.error _ => db

/-- The two-row participant INSERT of the `create_dm_chat_room` trigger,
with the UNIQUE(chat_room_id, user_id) constraint: the insert fails as a
whole when the two new rows collide or collide with an existing row. -/
def insertParticipantPair (db : DB) (rid a b : Nat) : Except String DB :=
  if a = b ∨ db.chat_participants.any
      (fun p => decide (p.chat_room_id = rid ∧ (p.user_id = a ∨ p.user_id = b))) then
    Except.error "duplicate key value violates unique constraint"
  else
    Except.ok { db with chat_participants := db.chat_participants ++ [⟨rid, a⟩, ⟨rid, b⟩] }

/-- Trigger function `public.create_dm_chat_room()` (SECURITY DEFINER, so
no RLS applies): when the updated row's status is `'accepted'` and the
old status was not, insert a `'direct'` room created by the requester and
add both parties as participants. -/
def create_dm_chat_room (db : DB) (oldStatus : ConnStatus) (c : Connection) :
    Except String DB :=
  if c.status = ConnStatus.accepted ∧ oldStatus ≠ ConnStatus.accepted then
    let rid := db.nextId
    let db2 := { db with
      chat_rooms := db.chat_rooms ++ [⟨rid, none, RoomType.direct, some c.requester_id⟩],
      nextId := db.nextId + 1 }
    insertParticipantPair db2 rid c.requester_id c.receiver_id
  else
    Except.ok db

/-- UPDATE of a `connections` row's status (as issued by `handleAccept` /
`handleReject` in Connections), followed by the AFTER UPDATE trigger
`on_connection_accepted`; a trigger failure aborts the whole update. -/
def updateConnectionStatus (db : DB) (cid : Nat) (newStatus : ConnStatus) : DB :=
  match db.connections.find? (fun x => decide (x.id = cid)) with
  | none => db
  | some c =>
    let updated : Connection := { c with status := newStatus }
    let db1 := { db with
      connections := db.connections.map (fun x => if x.id = cid then updated else x) }
    match create_dm_chat_room db1 c.status updated with
    | Except.ok db2 => db2
    | Except.error _ => db

/-- Client handleAccept (Connections): set the connection's status to
`'accepted'`, firing the DM-room trigger. -/
def handleAccept (db : DB) (cid : Nat) : DB :=
  updateConnectionStatus db cid ConnStatus.accepted

/-- The seed insert of migration 20251104065638: create the
`'Campus General Chat'` room unless a campus room already exists. -/
def seedCampusRoom (db : DB) : DB :=
  if db.chat_rooms.any (fun r => decide (r.type = RoomType.campus)) then db
  else { db with
    chat_rooms := db.chat_rooms ++ [⟨db.nextId, some "Campus General Chat", RoomType.campus, none⟩],
    nextId := db.nextId + 1 }

/-- The select with filter type = campus of `initializeCampusChat`. -/
def campusRoomQuery (db : DB) : List ChatRoom :=
  db.chat_rooms.filter (fun r => decide (r.type = RoomType.campus))

/-- Raw INSERT into `chat_participants` issued by a client acting as
`actingUid`, gated by the UNIQUE constraint and the two permissive INSERT
policies ("Users can join chats" and "Room creators can add participants
to their direct rooms"). -/
def chat_participants_insert (db : DB) (actingUid rid uid : Nat) : Except String DB :=
  if db.chat_participants.any (fun p => decide (p.chat_room_id = rid ∧ p.user_id = uid)) then
    Except.error "duplicate key value violates unique constraint"
  else if (decide (actingUid = uid)
        && (is_open_or_campus_room db rid
          || user_can_access_chat_room db actingUid rid
          || db.chat_rooms.any (fun r =>
               decide (r.id = rid ∧ r.type = RoomType.direct ∧ r.created_by = some actingUid))))
      || db.chat_rooms.any (fun r =>
           decide (r.id = rid ∧ r.type = RoomType.direct ∧ r.created_by = some actingUid)) then
    Except.ok { db with chat_participants := db.chat_participants ++ [⟨rid, uid⟩] }
  else
    Except.error "new row violates row-level security policy"

/-- Client initializeCampusChat (CampusChat): look up the campus room
(`.maybeSingle()` yields a row only when exactly one matches); when it
exists and the user is not yet a participant, insert a participant row
(its error is ignored). -/
def initializeCampusChat (db : DB) (uid : Nat) : DB :=
  match campusRoomQuery db with
  | [room] =>
    if db.chat_participants.any
        (fun p => decide (p.chat_room_id = room.id ∧ p.user_id = uid)) then db
    else
      match chat_participants_insert db uid room.id uid with
      | Except.ok db2 => db2
      | Except.error _ => db
  | _ => db

/-- The spec's `getOrCreateCampusRoom()` as realised by the repository:
the migration seed (run before any client call) composed with the
client-side `initializeCampusChat` join. -/
def getOrCreateCampusRoom (db : DB) (uid : Nat) : DB :=
  initializeCampusChat (seedCampusRoom db) uid

/-- A store with the seeded campus room (id 0) joined by users 1 and 2,
a direct room (id 1) for users 1 and 2, and one message in each room. -/
def c1Db : DB :=
  { chat_rooms := [⟨0, some "Campus General Chat", RoomType.campus, none⟩,
                   ⟨1, none, RoomType.direct, some 1⟩],
    chat_participants := [⟨0, 1⟩, ⟨0, 2⟩, ⟨1, 1⟩, ⟨1, 2⟩],
    messages := [⟨10, 0, 1, "hello campus", none⟩, ⟨11, 1, 1, "hello dm", none⟩],
    message_reads := [],
    connections := [],
    nextId := 12 }

/-- A store holding only the seeded campus room, in which exactly the two
users 1 and 2 have joined as participants. -/
def campusPairDb : DB :=
  { chat_rooms := [⟨0, some "Campus General Chat", RoomType.campus, none⟩],
    chat_participants := [⟨0, 1⟩, ⟨0, 2⟩],
    messages := [],
    message_reads := [],
    connections := [],
    nextId := 1 }

/-- The store produced by: user 1 requests a connection to user 2, user 2
accepts; then user 2 requests a connection to user 1, user 1 accepts. -/
def c3State : DB :=
  handleAccept (handleConnect (handleAccept (handleConnect emptyDB 1 2) 0) 2 1) 2

/-- A direct room (id 0) for users 1 and 2 with one message (id 5) from
user 1 and no read receipts yet. -/
def c5Db : DB :=
  { chat_rooms := [⟨0, none, RoomType.direct, some 1⟩],
    chat_participants := [⟨0, 1⟩, ⟨0, 2⟩],
    messages := [⟨5, 0, 1, "hi", none⟩],
    message_reads := [],
    connections := [],
    nextId := 6 }

/-- The campus room with users 1 and 2 joined and one message (id 10)
from user 2, not yet read by user 1. -/
def c6Db : DB :=
  { chat_rooms := [⟨0, some "Campus General Chat", RoomType.campus, none⟩],
    chat_participants := [⟨0, 1⟩, ⟨0, 2⟩],
    messages := [⟨10, 0, 2, "hello", none⟩],
    message_reads := [],
    connections := [],
    nextId := 11 }

/-- A store holding one pending connection request from user 1 to user 2. -/
def c7Db : DB :=
  { chat_rooms := [],
    chat_participants := [],
    messages := [],
    message_reads := [],
    connections := [⟨0, 1, 2, ConnStatus.pending⟩],
    nextId := 1 }

/-- The campus room alone, with no participants yet. -/
def campusOnlyDb : DB :=
  { chat_rooms := [⟨0, some "Campus General Chat", RoomType.campus, none⟩],
    chat_participants := [],
    messages := [],
    message_reads := [],
    connections := [],
    nextId := 1 }

/-- A content string of 5001 spaces: over the length limit but emptied by
trimming. -/
def blank5001 : String := String.mk (List.replicate 5001 ' ')

/-- A content string of 5001 letters: over the length limit. -/
def over5001 : String := String.mk (List.replicate 5001 'a')

/-- A declared application/zip file within the size ceiling. -/
def zipFile : FileData := ⟨"archive.zip", "application/zip", 10⟩

/-- A declared image/png file over the 10MB size ceiling. -/
def hugePng : FileData := ⟨"big.png", "image/png", 10 * 1024 * 1024 + 1⟩

/-- A declared image/png file within the size ceiling. -/
def okPng : FileData := ⟨"pic.png", "image/png", 1024⟩

/-- The per-row effect of the status UPDATE issued by handleAccept: the
row with the matched id gets the accepted status. -/
def acceptedUpdate (cid : Nat) (c : Connection) (x : Connection) : Connection :=
  if x.id = cid then { c with status := ConnStatus.accepted } else x

lemma markRead_eq_pos {db : DB} {mid uid : Nat}
    (h : db.message_reads.any
      (fun r => decide (r.message_id = mid ∧ r.user_id = uid)) = true) :
    markRead db mid uid = db := by
  unfold markRead message_reads_insert
  rw [if_pos h]

lemma markRead_eq_neg {db : DB} {mid uid : Nat}
    (h : ¬ db.message_reads.any
      (fun r => decide (r.message_id = mid ∧ r.user_id = uid)) = true) :
    markRead db mid uid =
      { db with message_reads := db.message_reads ++ [⟨mid, uid⟩] } := by
  unfold markRead message_reads_insert
  rw [if_neg h]

lemma markRead_mem_of_mem {db : DB} {mid uid : Nat} {r : MessageRead}
    (h : r ∈ db.message_reads) : r ∈ (markRead db mid uid).message_reads := by
  by_cases hc : db.message_reads.any
      (fun r => decide (r.message_id = mid ∧ r.user_id = uid)) = true
  · rw [markRead_eq_pos hc]; exact h
  · rw [markRead_eq_neg hc]; exact List.mem_append_left _ h

lemma markRead_mem_self (db : DB) (mid uid : Nat) :
    (⟨mid, uid⟩ : MessageRead) ∈ (markRead db mid uid).message_reads := by
  by_cases hc : db.message_reads.any
      (fun r => decide (r.message_id = mid ∧ r.user_id = uid)) = true
  · rw [markRead_eq_pos hc]
    rw [List.any_eq_true] at hc
    obtain ⟨r, hr, hpr⟩ := hc
    rw [decide_eq_true_eq] at hpr
    obtain ⟨h1, h2⟩ := hpr
    cases r
    simp only at h1 h2
    subst h1
    subst h2
    exact hr
  · rw [markRead_eq_neg hc]
    exact List.mem_append_right _ (List.mem_singleton.mpr rfl)

lemma markRead_mem_elim {db : DB} {mid uid : Nat} {r : MessageRead}
    (h : r ∈ (markRead db mid uid).message_reads) :
    r ∈ db.message_reads ∨ r = ⟨mid, uid⟩ := by
  by_cases hc : db.message_reads.any
      (fun r => decide (r.message_id = mid ∧ r.user_id = uid)) = true
  · rw [markRead_eq_pos hc] at h
    exact Or.inl h
  · rw [markRead_eq_neg hc] at h
    rcases List.mem_append.mp h with h1 | h1
    · exact Or.inl h1
    · exact Or.inr (List.mem_singleton.mp h1)

lemma foldl_markRead_mem_of_mem (uid : Nat) (l : List Message) :
    ∀ (db : DB) (r : MessageRead), r ∈ db.message_reads →
      r ∈ (l.foldl (fun acc m => markRead acc m.id uid) db).message_reads := by
  induction l with
  | nil => intro db r h; exact h
  | cons m t ih =>
    intro db r h
    exact ih (markRead db m.id uid) r (markRead_mem_of_mem h)

lemma foldl_markRead_covers (uid : Nat) (l : List Message) :
    ∀ (db : DB) (m : Message), m ∈ l →
      (⟨m.id, uid⟩ : MessageRead) ∈
        (l.foldl (fun acc m => markRead acc m.id uid) db).message_reads := by
  induction l with
  | nil => intro db m h; cases h
  | cons m0 t ih =>
    intro db m h
    rcases List.mem_cons.mp h with h1 | h1
    · subst h1
      exact foldl_markRead_mem_of_mem uid t _ _ (markRead_mem_self db m.id uid)
    · exact ih (markRead db m0.id uid) m h1

lemma foldl_markRead_mem_elim (uid : Nat) (l : List Message) :
    ∀ (db : DB) (r : MessageRead),
      r ∈ (l.foldl (fun acc m => markRead acc m.id uid) db).message_reads →
      r ∈ db.message_reads ∨ ∃ m ∈ l, r = ⟨m.id, uid⟩ := by
  induction l with
  | nil => intro db r h; exact Or.inl h
  | cons m0 t ih =>
    intro db r h
    rcases ih (markRead db m0.id uid) r h with h1 | h1
    · rcases markRead_mem_elim h1 with h2 | h2
      · exact Or.inl h2
      · exact Or.inr ⟨m0, List.mem_cons_self m0 t, h2⟩
    · obtain ⟨m, hm, hr⟩ := h1
      exact Or.inr ⟨m, List.mem_cons_of_mem m0 hm, hr⟩

/-- C5: markRead(m, u) is idempotent — calling it twice leaves the same
state as calling it once; afterwards the read-receipt set of message m
contains u exactly once; and a duplicate (message, user) insert is
rejected by the unique constraint but treated by the caller as a no-op
(the store is returned unchanged) rather than surfaced as an error. -/
theorem c5_markRead_idempotent (db : DB) (mid uid : Nat)
    (hinv : (db.message_reads.filter
      (fun r => decide (r.message_id = mid ∧ r.user_id = uid))).length ≤ 1) :
    markRead (markRead db mid uid) mid uid = markRead db mid uid ∧
    ((markRead db mid uid).message_reads.filter
      (fun r => decide (r.message_id = mid ∧ r.user_id = uid))).length = 1 ∧
    (∀ e : String, message_reads_insert db mid uid = Except.error e →
      markRead db mid uid = db) := by
  by_cases h : db.message_reads.any
      (fun r => decide (r.message_id = mid ∧ r.user_id = uid)) = true
  · have hm : markRead db mid uid = db := markRead_eq_pos h
    refine ⟨by rw [hm]; exact hm, ?_, fun e _ => hm⟩
    rw [hm]
    rw [List.any_eq_true] at h
    obtain ⟨r, hr, hpr⟩ := h
    have hpos : 0 < (db.message_reads.filter
        (fun r => decide (r.message_id = mid ∧ r.user_id = uid))).length :=
      List.length_pos.mpr (fun hnil => by
        rw [List.filter_eq_nil_iff] at hnil
        exact hnil r hr hpr)
    omega
  · have hm : markRead db mid uid =
        { db with message_reads := db.message_reads ++ [⟨mid, uid⟩] } :=
      markRead_eq_neg h
    have hnil : db.message_reads.filter
        (fun r => decide (r.message_id = mid ∧ r.user_id = uid)) = [] := by
      rw [List.filter_eq_nil_iff]
      intro r hr hpr
      exact h (List.any_eq_true.mpr ⟨r, hr, hpr⟩)
    refine ⟨?_, ?_, ?_⟩
    · have h2 : ({ db with message_reads := db.message_reads ++ [⟨mid, uid⟩] } :
          DB).message_reads.any
          (fun r => decide (r.message_id = mid ∧ r.user_id = uid)) = true := by
        rw [List.any_eq_true]
        exact ⟨⟨mid, uid⟩, List.mem_append_right _ (List.mem_singleton.mpr rfl),
          by rw [decide_eq_true_eq]; exact ⟨rfl, rfl⟩⟩
      rw [hm]
      exact markRead_eq_pos h2
    · rw [hm]
      simp only [List.filter_append, hnil, List.nil_append]
      rw [List.filter_cons]
      rw [if_pos (by rw [decide_eq_true_eq]; exact ⟨rfl, rfl⟩)]
      rfl
    · intro e he
      unfold message_reads_insert at he
      rw [if_neg h] at he
      cases he

/-- Witness for C5 at a concrete store: marking message 5 read by user 2
twice equals doing it once, and leaves exactly one matching receipt. -/
theorem c5_markRead_idempotent_witness :
    markRead (markRead c5Db 5 2) 5 2 = markRead c5Db 5 2 ∧
    ((markRead c5Db 5 2).message_reads.filter
      (fun r => decide (r.message_id = 5 ∧ r.user_id = 2))).length = 1 :=
  ⟨(c5_markRead_idempotent c5Db 5 2 (by decide)).1,
   (c5_markRead_idempotent c5Db 5 2 (by decide)).2.1⟩

lemma message_id_inj {db : DB}
    (hnodup : (db.messages.map (fun m => m.id)).Nodup) {m m' : Message}
    (hm : m ∈ db.messages) (hm' : m' ∈ db.messages) (h : m.id = m'.id) :
    m = m' :=
  List.inj_on_of_nodup_map hnodup hm hm' h

lemma loadMessages_snd_eq (db : DB) (rid uid : Nat) :
    (loadMessages db rid uid).2 =
      ((listMessages db rid uid).filter
        (fun m => decide (m.sender_id ≠ uid)
          && !((visibleReadsFor db uid m.id).any
                (fun r => decide (r.user_id = uid))))).foldl
        (fun acc m => markRead acc m.id uid) db := rfl

/-- C6: after list(room, viewer) completes, every message of the room the
viewer may see that was authored by another sender carries a read receipt
from the viewer; and neither the list/load pass nor the realtime insert
handler ever creates a read receipt by a user for a message that user
authored. -/
theorem c6_read_on_view (db : DB) (rid uid : Nat)
    (hnodup : (db.messages.map (fun m => m.id)).Nodup) :
    (∀ m ∈ db.messages, m.chat_room_id = rid → canViewMessage db uid m = true →
        m.sender_id ≠ uid →
        (⟨m.id, uid⟩ : MessageRead) ∈ (loadMessages db rid uid).2.message_reads) ∧
    (∀ r ∈ (loadMessages db rid uid).2.message_reads, r ∉ db.message_reads →
        ∀ m ∈ db.messages, m.id = r.message_id → m.sender_id ≠ r.user_id) ∧
    (∀ mid : Nat, ∀ r ∈ (onMessageInsert db uid mid).message_reads,
        r ∉ db.message_reads →
        ∀ m ∈ db.messages, m.id = r.message_id → m.sender_id ≠ r.user_id) := by
  rw [loadMessages_snd_eq]
  refine ⟨?_, ?_, ?_⟩
  · intro m hm hroom hview hsend
    by_cases hr : (⟨m.id, uid⟩ : MessageRead) ∈ db.message_reads
    · exact foldl_markRead_mem_of_mem uid _ db _ hr
    · apply foldl_markRead_covers
      apply List.mem_filter.mpr
      refine ⟨?_, ?_⟩
      · apply List.mem_filter.mpr
        refine ⟨hm, ?_⟩
        rw [Bool.and_eq_true, decide_eq_true_eq]
        exact ⟨hroom, hview⟩
      · rw [Bool.and_eq_true, decide_eq_true_eq]
        refine ⟨hsend, ?_⟩
        rw [Bool.not_eq_true', List.any_eq_false]
        intro r' hr' hp
        rw [decide_eq_true_eq] at hp
        have hr'm := List.mem_filter.mp hr'
        obtain ⟨hr'db, hr'p⟩ := hr'm
        rw [Bool.and_eq_true, decide_eq_true_eq] at hr'p
        apply hr
        have : r' = (⟨m.id, uid⟩ : MessageRead) := by
          cases r'
          simp only at hp hr'p
          simp only [MessageRead.mk.injEq]
          exact ⟨hr'p.1, hp⟩
        rw [← this]
        exact hr'db
  · intro r hrpost hrnew m hm hid
    rcases foldl_markRead_mem_elim uid _ db r hrpost with h1 | h1
    · exact absurd h1 hrnew
    · obtain ⟨m', hm', hreq⟩ := h1
      have hm'f := List.mem_filter.mp hm'
      obtain ⟨hm'data, hm'p⟩ := hm'f
      rw [Bool.and_eq_true, decide_eq_true_eq] at hm'p
      have hm'db : m' ∈ db.messages := (List.mem_filter.mp hm'data).1
      have hmid : m.id = m'.id := by rw [hid, hreq]
      have : m = m' := message_id_inj hnodup hm hm'db hmid
      rw [this, hreq]
      exact hm'p.1
  · intro mid r hrpost hrnew m hm hid
    cases hfind : db.messages.find?
        (fun m => decide (m.id = mid) && canViewMessage db uid m) with
    | none =>
      have heq : onMessageInsert db uid mid = db := by
        unfold onMessageInsert
        rw [hfind]
      rw [heq] at hrpost
      exact absurd hrpost hrnew
    | some m' =>
      have heq : onMessageInsert db uid mid =
          if m'.sender_id ≠ uid then markRead db m'.id uid else db := by
        unfold onMessageInsert
        rw [hfind]
      rw [heq] at hrpost
      by_cases hs : m'.sender_id ≠ uid
      · rw [if_pos hs] at hrpost
        rcases markRead_mem_elim hrpost with h1 | h1
        · exact absurd h1 hrnew
        · have hm'db : m' ∈ db.messages := List.mem_of_find?_eq_some hfind
          have hmid : m.id = m'.id := by rw [hid, h1]
          have : m = m' := message_id_inj hnodup hm hm'db hmid
          rw [this, h1]
          exact hs
      · rw [if_neg hs] at hrpost
        exact absurd hrpost hrnew

/-- Witness for C6 at a concrete store: after user 1 lists the campus
room, the message sent by user 2 carries a read receipt from user 1. -/
theorem c6_read_on_view_witness :
    (⟨10, 1⟩ : MessageRead) ∈ (loadMessages c6Db 0 1).2.message_reads :=
  (c6_read_on_view c6Db 0 1 (by decide)).1
    ⟨10, 0, 2, "hello", none⟩ (by decide) (by decide) (by decide) (by decide)

lemma room_id_unique {db : DB} {rid : Nat} {room : ChatRoom}
    (hfind : db.chat_rooms.find? (fun r => decide (r.id = rid)) = some room)
    (hnodup : (db.chat_rooms.map (fun r => r.id)).Nodup) :
    ∀ r ∈ db.chat_rooms, r.id = rid → r = room := by
  intro r hr hid
  have hmem := List.mem_of_find?_eq_some hfind
  have h0 := List.find?_some hfind
  simp only [decide_eq_true_eq] at h0
  exact List.inj_on_of_nodup_map hnodup hr hmem (by rw [hid, h0])

lemma is_open_or_campus_eq {db : DB} {rid : Nat} {room : ChatRoom}
    (hfind : db.chat_rooms.find? (fun r => decide (r.id = rid)) = some room)
    (hnodup : (db.chat_rooms.map (fun r => r.id)).Nodup) :
    is_open_or_campus_room db rid =
      decide (room.type = RoomType.campus ∨ room.type = RoomType.«open») := by
  have hrid := List.find?_some hfind
  simp only [decide_eq_true_eq] at hrid
  by_cases h : room.type = RoomType.campus ∨ room.type = RoomType.«open»
  · have ht : is_open_or_campus_room db rid = true := by
      rw [is_open_or_campus_room, List.any_eq_true]
      exact ⟨room, List.mem_of_find?_eq_some hfind,
        by rw [decide_eq_true_eq]; exact ⟨hrid, h⟩⟩
    rw [ht, decide_eq_true h]
  · have ht : is_open_or_campus_room db rid = false := by
      rw [is_open_or_campus_room, List.any_eq_false]
      intro r hr hp
      rw [decide_eq_true_eq] at hp
      obtain ⟨h1, h2⟩ := hp
      have heq := room_id_unique hfind hnodup r hr h1
      rw [heq] at h2
      exact h h2
    rw [ht, decide_eq_false h]

/-- C1: message listing matches the room-type policy.  For a room of type
campus or open, list(r, u) returns exactly the messages of r for every
authenticated user u; for a direct room it returns them iff a
ChatParticipant row (u, r) exists, and in particular a direct room whose
participants all lie in the pair a, b yields the empty (silently denied)
result to any user outside the pair. -/
theorem c1_list_access_policy (db : DB) (rid uid a b : Nat) (room : ChatRoom)
    (hfind : db.chat_rooms.find? (fun r => decide (r.id = rid)) = some room)
    (hnodup : (db.chat_rooms.map (fun r => r.id)).Nodup) :
    ((room.type = RoomType.campus ∨ room.type = RoomType.«open») →
        listMessages db rid uid =
          db.messages.filter (fun m => decide (m.chat_room_id = rid))) ∧
    (room.type = RoomType.direct →
      ((user_can_access_chat_room db uid rid = true →
          listMessages db rid uid =
            db.messages.filter (fun m => decide (m.chat_room_id = rid))) ∧
       (user_can_access_chat_room db uid rid = false →
          listMessages db rid uid = []) ∧
       ((∀ p ∈ db.chat_participants, p.chat_room_id = rid →
            p.user_id = a ∨ p.user_id = b) →
          uid ≠ a → uid ≠ b → listMessages db rid uid = []))) := by
  have hioc := is_open_or_campus_eq hfind hnodup
  constructor
  · intro hty
    unfold listMessages
    apply List.filter_congr
    intro m hm
    by_cases hroom : m.chat_room_id = rid
    · rw [decide_eq_true hroom, Bool.true_and]
      unfold canViewMessage
      rw [hroom, hioc, decide_eq_true hty, Bool.true_or]
    · rw [decide_eq_false hroom, Bool.false_and]
  · intro hty
    have hiocf : is_open_or_campus_room db rid = false := by
      rw [hioc, decide_eq_false]
      rintro (h | h) <;> rw [hty] at h <;> exact RoomType.noConfusion h
    have hden : user_can_access_chat_room db uid rid = false →
        listMessages db rid uid = [] := by
      intro hacc
      unfold listMessages
      rw [List.filter_eq_nil_iff]
      intro m hm hp
      rw [Bool.and_eq_true] at hp
      obtain ⟨h1, h2⟩ := hp
      rw [decide_eq_true_eq] at h1
      unfold canViewMessage at h2
      rw [h1, hiocf, hacc] at h2
      simp at h2
    refine ⟨?_, hden, ?_⟩
    · intro hacc
      unfold listMessages
      apply List.filter_congr
      intro m hm
      by_cases hroom : m.chat_room_id = rid
      · rw [decide_eq_true hroom, Bool.true_and]
        unfold canViewMessage
        rw [hroom, hacc, Bool.or_true]
      · rw [decide_eq_false hroom, Bool.false_and]
    · intro hpart hua hub
      apply hden
      rw [user_can_access_chat_room, List.any_eq_false]
      intro p hp hpd
      rw [decide_eq_true_eq] at hpd
      obtain ⟨h1, h2⟩ := hpd
      rcases hpart p hp h1 with h3 | h3 <;> rw [h2] at h3
      · exact hua h3
      · exact hub h3

/-- Witness for C1 at a concrete store: user 3, outside the direct room
of users 1 and 2, is silently denied its messages, while any user sees
the campus room's messages. -/
theorem c1_list_access_policy_witness :
    listMessages c1Db 1 3 = [] ∧
    listMessages c1Db 0 99 =
      c1Db.messages.filter (fun m => decide (m.chat_room_id = 0)) :=
  ⟨(c1_list_access_policy c1Db 1 3 1 2 ⟨1, none, RoomType.direct, some 1⟩
      (by decide) (by decide)).2 rfl |>.2.2 (by decide) (by decide) (by decide),
   (c1_list_access_policy c1Db 0 99 0 0
      ⟨0, some "Campus General Chat", RoomType.campus, none⟩
      (by decide) (by decide)).1 (Or.inl rfl)⟩

lemma blank5001_trim : trimString blank5001 = "" := by
  have h : List.dropWhile Char.isWhitespace (List.replicate 5001 ' ') = [] := by
    rw [List.dropWhile_eq_nil_iff]
    intro x hx
    rw [List.eq_of_mem_replicate hx]
    rfl
  show String.mk (((List.replicate 5001 ' ').dropWhile
    Char.isWhitespace).reverse.dropWhile Char.isWhitespace).reverse = ""
  rw [h, List.reverse_nil, List.dropWhile_nil, List.reverse_nil]

lemma blank5001_length : blank5001.length = 5001 := by
  show (List.replicate 5001 ' ').length = 5001
  rw [List.length_replicate]

lemma over5001_trim : trimString over5001 = over5001 := by
  have h : List.dropWhile Char.isWhitespace (List.replicate 5001 'a') =
      List.replicate 5001 'a' := by
    rw [List.dropWhile_eq_self_iff]
    intro hl
    rw [List.get_replicate]
    decide
  show String.mk (((List.replicate 5001 'a').dropWhile
    Char.isWhitespace).reverse.dropWhile Char.isWhitespace).reverse = over5001
  rw [h, List.reverse_replicate, h, List.reverse_replicate]
  rfl

lemma over5001_length : over5001.length = 5001 := by
  show (List.replicate 5001 'a').length = 5001
  rw [List.length_replicate]

lemma over5001_ne_empty : over5001 ≠ "" := by
  intro h
  have h2 := congrArg String.length h
  rw [over5001_length] at h2
  exact absurd h2 (by decide)

/-- Counterexample to C4 as stated: a content of 5001 spaces with no
attachment exceeds the length limit, yet handleSend silently does nothing
(result noop, store unchanged) instead of rejecting it with the
validation error. -/
theorem c4_counterexample :
    blank5001.length > MAX_MESSAGE_LENGTH ∧
    (handleSend emptyDB 0 1 blank5001 none true none).1 = SendResult.noop ∧
    (handleSend emptyDB 0 1 blank5001 none true none).2 = emptyDB ∧
    SendResult.noop ≠ SendResult.invalidMessage := by
  have h1 : handleSend emptyDB 0 1 blank5001 none true none =
      (SendResult.noop, emptyDB) := by
    unfold handleSend
    rw [if_pos ⟨blank5001_trim, rfl⟩]
  refine ⟨?_, by rw [h1], by rw [h1], by decide⟩
  rw [blank5001_length]
  decide

/-- C4 (amended): a send whose content exceeds 5000 characters never
persists a message row — the store is unchanged — and it is rejected with
the validation error whenever the call is not the silent no-op case
(trimmed-empty content with no attachment). -/
theorem c4_overlong_rejected (db : DB) (rid uid : Nat) (content : String)
    (file : Option FileData) (uploadOk : Bool) (signedUrl : Option String)
    (hlen : content.length > MAX_MESSAGE_LENGTH) :
    (handleSend db rid uid content file uploadOk signedUrl).2 = db ∧
    ((trimString content ≠ "" ∨ file ≠ none) →
      (handleSend db rid uid content file uploadOk signedUrl).1 =
        SendResult.invalidMessage) := by
  by_cases h0 : trimString content = "" ∧ file = none
  · have h1 : handleSend db rid uid content file uploadOk signedUrl =
        (SendResult.noop, db) := by
      unfold handleSend
      rw [if_pos h0]
    refine ⟨by rw [h1], ?_⟩
    rintro (h | h)
    · exact absurd h0.1 h
    · exact absurd h0.2 h
  · have hv : ¬ messageSchemaCheck content = true := by
      intro hc
      rw [messageSchemaCheck, decide_eq_true_eq] at hc
      omega
    have h1 : handleSend db rid uid content file uploadOk signedUrl =
        (SendResult.invalidMessage, db) := by
      unfold handleSend
      rw [if_neg h0, if_pos hv]
    exact ⟨by rw [h1], fun _ => by rw [h1]⟩

/-- Witness for the amended C4: 5001 letters with no attachment are
rejected with the validation error and the store is unchanged. -/
theorem c4_overlong_rejected_witness :
    (handleSend emptyDB 0 1 over5001 none true none).2 = emptyDB ∧
    (handleSend emptyDB 0 1 over5001 none true none).1 =
      SendResult.invalidMessage := by
  have hlen : over5001.length > MAX_MESSAGE_LENGTH := by
    rw [over5001_length]
    decide
  refine ⟨(c4_overlong_rejected emptyDB 0 1 over5001 none true none hlen).1,
    (c4_overlong_rejected emptyDB 0 1 over5001 none true none hlen).2 ?_⟩
  exact Or.inl (by rw [over5001_trim]; exact over5001_ne_empty)

lemma handleSend_file_step (db : DB) (rid uid : Nat) (content : String)
    (f : FileData) (uploadOk : Bool) (signedUrl : Option String)
    (hlen : content.length ≤ MAX_MESSAGE_LENGTH) :
    handleSend db rid uid content (some f) uploadOk signedUrl =
      (if ¬ f.type ∈ ALLOWED_FILE_TYPES then (SendResult.invalidFileType, db)
       else if f.size > MAX_FILE_SIZE then (SendResult.fileTooLarge, db)
       else if ¬ uploadOk = true then (SendResult.uploadFailed, db)
       else
         match signedUrl with
         | none => (SendResult.urlFailed, db)
         | some u =>
           match messages_insert db rid uid
               (if content ≠ "" then content else "Shared a file: " ++ f.name)
               (some u) with
           | Except.ok db2 => (SendResult.sent, db2)
           | Except.error _ => (SendResult.insertError, db)) := by
  have hv : messageSchemaCheck content = true := by
    rw [messageSchemaCheck]
    exact decide_eq_true hlen
  unfold handleSend
  rw [if_neg (fun h => Option.noConfusion h.2), if_neg (fun hc => hc hv)]

/-- C9: send with an attachment validates the declared MIME type against
the allow-list and the size against the 10MB ceiling before any
persistence: application/zip is rejected as an invalid type with the
store unchanged, an allowed type over the ceiling is rejected as too
large with the store unchanged, and an image/png under the ceiling passes
validation and, once upload and signed-url generation succeed, yields a
message row carrying the retrievable signed url. -/
theorem c9_attachment_validation (db : DB) (rid uid : Nat) (content : String)
    (f : FileData) (uploadOk : Bool) (signedUrl : Option String)
    (hlen : content.length ≤ MAX_MESSAGE_LENGTH) :
    (f.type = "application/zip" →
        handleSend db rid uid content (some f) uploadOk signedUrl =
          (SendResult.invalidFileType, db)) ∧
    (f.type ∈ ALLOWED_FILE_TYPES → f.size > MAX_FILE_SIZE →
        handleSend db rid uid content (some f) uploadOk signedUrl =
          (SendResult.fileTooLarge, db)) ∧
    (∀ u : String, f.type = "image/png" → f.size ≤ MAX_FILE_SIZE →
        uploadOk = true → signedUrl = some u → canSendMessage db uid rid = true →
        handleSend db rid uid content (some f) uploadOk signedUrl =
          (SendResult.sent,
           { db with
             messages := db.messages ++
               [⟨db.nextId, rid, uid,
                 (if content ≠ "" then content else "Shared a file: " ++ f.name),
                 some u⟩],
             nextId := db.nextId + 1 })) := by
  rw [handleSend_file_step db rid uid content f uploadOk signedUrl hlen]
  refine ⟨?_, ?_, ?_⟩
  · intro hty
    have hmem : ¬ f.type ∈ ALLOWED_FILE_TYPES := by
      rw [hty]
      decide
    rw [if_pos hmem]
  · intro hty hsz
    rw [if_neg (not_not_intro hty), if_pos hsz]
  · intro u hty hsz hup hurl hsend
    have hmem : f.type ∈ ALLOWED_FILE_TYPES := by
      rw [hty]
      decide
    have hins : messages_insert db rid uid
        (if content ≠ "" then content else "Shared a file: " ++ f.name) (some u) =
        Except.ok { db with
          messages := db.messages ++
            [⟨db.nextId, rid, uid,
              (if content ≠ "" then content else "Shared a file: " ++ f.name),
              some u⟩],
          nextId := db.nextId + 1 } := by
      unfold messages_insert
      rw [if_pos hsend]
    rw [if_neg (not_not_intro hmem), if_neg (not_lt.mpr hsz), hup,
      if_neg (not_not_intro rfl), hurl]
    show (match messages_insert db rid uid
        (if content ≠ "" then content else "Shared a file: " ++ f.name)
        (some u) with
      | Except.ok db2 => (SendResult.sent, db2)
      | Except.error _ => (SendResult.insertError, db)) = _
    rw [hins]

/-- Witness for C9 at a concrete store: in the campus room, a zip file is
rejected as invalid type, an oversized png as too large, and a small png
is sent with the signed url recorded on the message row. -/
theorem c9_attachment_validation_witness :
    handleSend campusOnlyDb 0 1 "hi" (some zipFile) true (some "url") =
      (SendResult.invalidFileType, campusOnlyDb) ∧
    handleSend campusOnlyDb 0 1 "hi" (some hugePng) true (some "url") =
      (SendResult.fileTooLarge, campusOnlyDb) ∧
    handleSend campusOnlyDb 0 1 "hi" (some okPng) true (some "url") =
      (SendResult.sent,
       { campusOnlyDb with
         messages := campusOnlyDb.messages ++
           [⟨campusOnlyDb.nextId, 0, 1,
             (if ("hi" : String) ≠ "" then "hi" else "Shared a file: " ++ okPng.name),
             some "url"⟩],
         nextId := campusOnlyDb.nextId + 1 }) :=
  ⟨(c9_attachment_validation campusOnlyDb 0 1 "hi" zipFile true (some "url")
      (by decide)).1 rfl,
   (c9_attachment_validation campusOnlyDb 0 1 "hi" hugePng true (some "url")
      (by decide)).2.1 (by decide) (by decide),
   (c9_attachment_validation campusOnlyDb 0 1 "hi" okPng true (some "url")
      (by decide)).2.2 "url" rfl (by decide) rfl rfl (by decide)⟩

/-- C10: send is atomic with respect to attachment failures.  For a call
that passed content and file validation, a failed upload stops the
operation with the upload error and an absent signed url stops it with
the url error, in both cases leaving the store unchanged; and any message
row the call adds exists only when both the upload and the signed-url
generation succeeded, and it carries that signed url. -/
theorem c10_send_attachment_atomic (db : DB) (rid uid : Nat) (content : String)
    (f : FileData) (uploadOk : Bool) (signedUrl : Option String)
    (hlen : content.length ≤ MAX_MESSAGE_LENGTH)
    (hty : f.type ∈ ALLOWED_FILE_TYPES) (hsz : f.size ≤ MAX_FILE_SIZE) :
    (uploadOk = false →
        handleSend db rid uid content (some f) uploadOk signedUrl =
          (SendResult.uploadFailed, db)) ∧
    (uploadOk = true → signedUrl = none →
        handleSend db rid uid content (some f) uploadOk signedUrl =
          (SendResult.urlFailed, db)) ∧
    (∀ m : Message,
        m ∈ (handleSend db rid uid content (some f) uploadOk signedUrl).2.messages →
        m ∉ db.messages →
        uploadOk = true ∧ ∃ u : String, signedUrl = some u ∧ m.file_url = some u) := by
  rw [handleSend_file_step db rid uid content f uploadOk signedUrl hlen,
    if_neg (not_not_intro hty), if_neg (not_lt.mpr hsz)]
  refine ⟨?_, ?_, ?_⟩
  · intro hup
    rw [hup, if_pos Bool.false_ne_true]
  · intro hup hurl
    rw [hup, if_neg (not_not_intro rfl), hurl]
  · intro m hmem hnew
    by_cases hup : uploadOk = true
    · rw [hup, if_neg (not_not_intro rfl)] at hmem
      cases hurl : signedUrl with
      | none =>
        rw [hurl] at hmem
        exact absurd hmem hnew
      | some u =>
        rw [hurl] at hmem
        by_cases hcs : canSendMessage db uid rid = true
        · have hins : messages_insert db rid uid
              (if content ≠ "" then content else "Shared a file: " ++ f.name)
              (some u) =
              Except.ok { db with
                messages := db.messages ++
                  [⟨db.nextId, rid, uid,
                    (if content ≠ "" then content else "Shared a file: " ++ f.name),
                    some u⟩],
                nextId := db.nextId + 1 } := by
            unfold messages_insert
            rw [if_pos hcs]
          have hmem2 : m ∈ (match messages_insert db rid uid
              (if content ≠ "" then content else "Shared a file: " ++ f.name)
              (some u) with
            | Except.ok db2 => (SendResult.sent, db2)
            | Except.error _ => (SendResult.insertError, db)).2.messages := hmem
          rw [hins] at hmem2
          rcases List.mem_append.mp hmem2 with h1 | h1
          · exact absurd h1 hnew
          · have h2 := List.mem_singleton.mp h1
            refine ⟨hup, u, rfl, ?_⟩
            rw [h2]
        · have hins : messages_insert db rid uid
              (if content ≠ "" then content else "Shared a file: " ++ f.name)
              (some u) =
              Except.error "new row violates row-level security policy" := by
            unfold messages_insert
            rw [if_neg hcs]
          have hmem2 : m ∈ (match messages_insert db rid uid
              (if content ≠ "" then content else "Shared a file: " ++ f.name)
              (some u) with
            | Except.ok db2 => (SendResult.sent, db2)
            | Except.error _ => (SendResult.insertError, db)).2.messages := hmem
          rw [hins] at hmem2
          exact absurd hmem2 hnew
    · rw [if_pos hup] at hmem
      exact absurd hmem hnew

/-- Witness for C10 at a concrete store: with a valid png, a failed
upload yields the upload error and a missing signed url yields the url
error, both leaving the store unchanged. -/
theorem c10_send_attachment_atomic_witness :
    handleSend campusOnlyDb 0 1 "hi" (some okPng) false none =
      (SendResult.uploadFailed, campusOnlyDb) ∧
    handleSend campusOnlyDb 0 1 "hi" (some okPng) true none =
      (SendResult.urlFailed, campusOnlyDb) :=
  ⟨(c10_send_attachment_atomic campusOnlyDb 0 1 "hi" okPng false none
      (by decide) (by decide) (by decide)).1 rfl,
   (c10_send_attachment_atomic campusOnlyDb 0 1 "hi" okPng true none
      (by decide) (by decide) (by decide)).2.1 rfl rfl⟩

/-- C2 evaluated at a failing input: in a store whose only room is the
campus room, joined by exactly the two users 1 and 2, the room scan of
handleMessage returns the campus room — the select has no filter on
room.type, so a room whose type is not direct is returned, contradicting
the claim that only direct rooms are scanned. -/
theorem c2_scan_returns_campus_room :
    findDirectRoom campusPairDb 1 2 = some 0 ∧
    (∀ r ∈ campusPairDb.chat_rooms, r.type ≠ RoomType.direct) := by
  decide

lemma updateConnectionStatus_accept_eq (db : DB) (cid : Nat) (c : Connection)
    (hfind : db.connections.find? (fun x => decide (x.id = cid)) = some c)
    (hstat : c.status ≠ ConnStatus.accepted)
    (hab : c.requester_id ≠ c.receiver_id)
    (hfp : ∀ p ∈ db.chat_participants, p.chat_room_id ≠ db.nextId) :
    updateConnectionStatus db cid ConnStatus.accepted =
      { db with
        connections := db.connections.map (acceptedUpdate cid c),
        chat_rooms := db.chat_rooms ++
          [⟨db.nextId, none, RoomType.direct, some c.requester_id⟩],
        chat_participants := db.chat_participants ++
          [⟨db.nextId, c.requester_id⟩, ⟨db.nextId, c.receiver_id⟩],
        nextId := db.nextId + 1 } := by
  have hno : ¬ (c.requester_id = c.receiver_id ∨
      (db.chat_participants.any (fun p => decide (p.chat_room_id = db.nextId ∧
        (p.user_id = c.requester_id ∨ p.user_id = c.receiver_id)))) = true) := by
    rintro (h | h)
    · exact hab h
    · rw [List.any_eq_true] at h
      obtain ⟨p, hp, hpd⟩ := h
      rw [decide_eq_true_eq] at hpd
      exact hfp p hp hpd.1
  have htrig : create_dm_chat_room
      { db with connections := db.connections.map (acceptedUpdate cid c) }
      c.status { c with status := ConnStatus.accepted } =
      Except.ok { db with
        connections := db.connections.map (acceptedUpdate cid c),
        chat_rooms := db.chat_rooms ++
          [⟨db.nextId, none, RoomType.direct, some c.requester_id⟩],
        chat_participants := db.chat_participants ++
          [⟨db.nextId, c.requester_id⟩, ⟨db.nextId, c.receiver_id⟩],
        nextId := db.nextId + 1 } := by
    unfold create_dm_chat_room
    rw [if_pos ⟨rfl, hstat⟩]
    unfold insertParticipantPair
    rw [if_neg hno]
  have hred : updateConnectionStatus db cid ConnStatus.accepted =
      (match create_dm_chat_room
          { db with connections := db.connections.map (acceptedUpdate cid c) }
          c.status { c with status := ConnStatus.accepted } with
        | Except.ok db2 => db2
        | Except.error _ => db) := by
    unfold updateConnectionStatus
    rw [hfind]
    rfl
  rw [hred, htrig]

lemma findDirectRoom_created (cr : List ChatRoom) (cp : List ChatParticipant)
    (ms : List Message) (mr : List MessageRead) (cs : List Connection)
    (nid nid2 a b : Nat) (room : ChatRoom)
    (hroom : room.id = nid)
    (hna : ∀ p ∈ cp, p.user_id ≠ a)
    (hnr : ∀ p ∈ cp, p.chat_room_id ≠ nid)
    (hba : b ≠ a) :
    findDirectRoom ⟨cr ++ [room], cp ++ [⟨nid, a⟩, ⟨nid, b⟩], ms, mr, cs, nid2⟩ a b =
      some nid := by
  have hany : (cr ++ [room]).any (fun r => decide (r.id = nid)) = true :=
    List.any_eq_true.mpr ⟨room, List.mem_append_right _ (List.mem_singleton.mpr rfl),
      decide_eq_true hroom⟩
  have h1 : (cp ++ [(⟨nid, a⟩ : ChatParticipant), ⟨nid, b⟩]).filter
      (fun p => decide (p.user_id = a)
        && ((cr ++ [room]).any (fun r => decide (r.id = p.chat_room_id)))) =
      [⟨nid, a⟩] := by
    rw [List.filter_append]
    have e1 : cp.filter
        (fun p => decide (p.user_id = a)
          && ((cr ++ [room]).any (fun r => decide (r.id = p.chat_room_id)))) = [] := by
      rw [List.filter_eq_nil_iff]
      intro p hp hpd
      rw [Bool.and_eq_true, decide_eq_true_eq] at hpd
      exact hna p hp hpd.1
    rw [e1, List.nil_append, List.filter_cons, List.filter_cons, List.filter_nil]
    rw [if_pos (show (decide ((⟨nid, a⟩ : ChatParticipant).user_id = a)
      && ((cr ++ [room]).any (fun r => decide (r.id =
        (⟨nid, a⟩ : ChatParticipant).chat_room_id)))) = true by
      rw [Bool.and_eq_true]
      exact ⟨decide_eq_true rfl, hany⟩)]
    rw [if_neg (fun hc => by
      rw [Bool.and_eq_true, decide_eq_true_eq] at hc
      exact hba hc.1)]
  have h2 : (cp ++ [(⟨nid, a⟩ : ChatParticipant), ⟨nid, b⟩]).filter
      (fun q => decide (q.chat_room_id = nid)) = [⟨nid, a⟩, ⟨nid, b⟩] := by
    rw [List.filter_append]
    have e2 : cp.filter (fun q => decide (q.chat_room_id = nid)) = [] := by
      rw [List.filter_eq_nil_iff]
      intro p hp hpd
      rw [decide_eq_true_eq] at hpd
      exact hnr p hp hpd
    rw [e2, List.nil_append, List.filter_cons, List.filter_cons, List.filter_nil]
    rw [if_pos (decide_eq_true rfl), if_pos (decide_eq_true rfl)]
  have h3 : (fun p : ChatParticipant =>
      decide (((cp ++ [(⟨nid, a⟩ : ChatParticipant), ⟨nid, b⟩]).filter
        (fun q => decide (q.chat_room_id = p.chat_room_id))).length = 2)
      && ((cp ++ [(⟨nid, a⟩ : ChatParticipant), ⟨nid, b⟩]).filter
        (fun q => decide (q.chat_room_id = p.chat_room_id))).any
          (fun q => decide (q.user_id = b))) (⟨nid, a⟩ : ChatParticipant) = true := by
    show (decide (((cp ++ [(⟨nid, a⟩ : ChatParticipant), ⟨nid, b⟩]).filter
        (fun q => decide (q.chat_room_id = nid))).length = 2)
      && ((cp ++ [(⟨nid, a⟩ : ChatParticipant), ⟨nid, b⟩]).filter
        (fun q => decide (q.chat_room_id = nid))).any
          (fun q => decide (q.user_id = b))) = true
    rw [h2]
    rw [Bool.and_eq_true]
    refine ⟨decide_eq_true rfl, ?_⟩
    exact List.any_eq_true.mpr ⟨⟨nid, b⟩,
      List.mem_cons_of_mem _ (List.mem_singleton.mpr rfl), decide_eq_true rfl⟩
  unfold findDirectRoom
  show (((cp ++ [(⟨nid, a⟩ : ChatParticipant), ⟨nid, b⟩]).filter
      (fun p => decide (p.user_id = a)
        && ((cr ++ [room]).any (fun r => decide (r.id = p.chat_room_id))))).find?
      (fun p =>
        decide (((cp ++ [(⟨nid, a⟩ : ChatParticipant), ⟨nid, b⟩]).filter
          (fun q => decide (q.chat_room_id = p.chat_room_id))).length = 2)
        && ((cp ++ [(⟨nid, a⟩ : ChatParticipant), ⟨nid, b⟩]).filter
          (fun q => decide (q.chat_room_id = p.chat_room_id))).any
            (fun q => decide (q.user_id = b)))).map (fun p => p.chat_room_id) =
    some nid
  have h4 : List.find? (fun p : ChatParticipant =>
      decide (((cp ++ [(⟨nid, a⟩ : ChatParticipant), ⟨nid, b⟩]).filter
        (fun q => decide (q.chat_room_id = p.chat_room_id))).length = 2)
      && ((cp ++ [(⟨nid, a⟩ : ChatParticipant), ⟨nid, b⟩]).filter
        (fun q => decide (q.chat_room_id = p.chat_room_id))).any
          (fun q => decide (q.user_id = b)))
      [(⟨nid, a⟩ : ChatParticipant)] = some ⟨nid, a⟩ :=
    List.find?_cons_of_pos _ h3
  rw [h1, h4]
  rfl

/-- Counterexample to C3: accepting the request 1→2 creates direct room
1 for the pair, and accepting the reverse request 2→1 — which the ordered
UNIQUE(requester_id, receiver_id) constraint does not block — creates a
second direct room 3 for the same unordered pair, instead of returning
the existing room or being rejected by a uniqueness constraint. -/
theorem c3_counterexample :
    c3State.chat_rooms =
      [⟨1, none, RoomType.direct, some 1⟩, ⟨3, none, RoomType.direct, some 2⟩] ∧
    c3State.chat_participants = [⟨1, 1⟩, ⟨1, 2⟩, ⟨3, 2⟩, ⟨3, 1⟩] ∧
    findDirectRoom c3State 1 2 = some 1 ∧
    findDirectRoom c3State 2 1 = some 1 := by
  decide

/-- C3 (amended): each transition of a connection to accepted
unconditionally appends a fresh direct room for the pair — it neither
returns an existing room nor is rejected by any uniqueness constraint,
so a second acceptance for the same unordered pair (for example of the
reverse request, which the ordered constraint on connections admits)
yields a second room; findDirectRoom(a, b) does return the newly created
room's id when a participates in no prior room. -/
theorem c3_accept_always_creates (db : DB) (cid : Nat) (c : Connection)
    (hfind : db.connections.find? (fun x => decide (x.id = cid)) = some c)
    (hstat : c.status ≠ ConnStatus.accepted)
    (hab : c.requester_id ≠ c.receiver_id)
    (hfp : ∀ p ∈ db.chat_participants, p.chat_room_id ≠ db.nextId)
    (hna : ∀ p ∈ db.chat_participants, p.user_id ≠ c.requester_id) :
    (updateConnectionStatus db cid ConnStatus.accepted).chat_rooms =
      db.chat_rooms ++ [⟨db.nextId, none, RoomType.direct, some c.requester_id⟩] ∧
    findDirectRoom (updateConnectionStatus db cid ConnStatus.accepted)
      c.requester_id c.receiver_id = some db.nextId := by
  rw [updateConnectionStatus_accept_eq db cid c hfind hstat hab hfp]
  exact ⟨rfl, findDirectRoom_created db.chat_rooms db.chat_participants db.messages
    db.message_reads _ db.nextId (db.nextId + 1) c.requester_id c.receiver_id
    _ rfl hna hfp (fun h => hab h.symm)⟩

/-- Witness for the amended C3: accepting the pending request 1→2 in a
store with no rooms creates direct room 1, found again by the scan. -/
theorem c3_accept_always_creates_witness :
    (updateConnectionStatus c7Db 0 ConnStatus.accepted).chat_rooms =
      c7Db.chat_rooms ++ [⟨1, none, RoomType.direct, some 1⟩] ∧
    findDirectRoom (updateConnectionStatus c7Db 0 ConnStatus.accepted) 1 2 =
      some 1 :=
  c3_accept_always_creates c7Db 0 ⟨0, 1, 2, ConnStatus.pending⟩
    (by decide) (by decide) (by decide)
    (fun p hp => absurd hp (List.not_mem_nil p))
    (fun p hp => absurd hp (List.not_mem_nil p))

/-- C7: when a connection row transitions from a non-accepted status to
accepted, the trigger — within the same update operation, with no
user-initiated action — appends exactly one new chat room, of type
direct, and inserts exactly the two parties (requester and receiver) as
its participants, so the created room has exactly 2 participants. -/
theorem c7_accept_creates_dm_room (db : DB) (cid : Nat) (c : Connection)
    (hfind : db.connections.find? (fun x => decide (x.id = cid)) = some c)
    (hstat : c.status ≠ ConnStatus.accepted)
    (hab : c.requester_id ≠ c.receiver_id)
    (hfp : ∀ p ∈ db.chat_participants, p.chat_room_id ≠ db.nextId) :
    (updateConnectionStatus db cid ConnStatus.accepted).chat_rooms =
      db.chat_rooms ++ [⟨db.nextId, none, RoomType.direct, some c.requester_id⟩] ∧
    (updateConnectionStatus db cid ConnStatus.accepted).chat_participants =
      db.chat_participants ++
        [⟨db.nextId, c.requester_id⟩, ⟨db.nextId, c.receiver_id⟩] ∧
    ((updateConnectionStatus db cid ConnStatus.accepted).chat_participants.filter
      (fun p => decide (p.chat_room_id = db.nextId))) =
      [⟨db.nextId, c.requester_id⟩, ⟨db.nextId, c.receiver_id⟩] := by
  rw [updateConnectionStatus_accept_eq db cid c hfind hstat hab hfp]
  refine ⟨rfl, rfl, ?_⟩
  show (db.chat_participants ++
      [(⟨db.nextId, c.requester_id⟩ : ChatParticipant),
       ⟨db.nextId, c.receiver_id⟩]).filter
      (fun p => decide (p.chat_room_id = db.nextId)) =
    [⟨db.nextId, c.requester_id⟩, ⟨db.nextId, c.receiver_id⟩]
  rw [List.filter_append]
  have e : db.chat_participants.filter
      (fun p => decide (p.chat_room_id = db.nextId)) = [] := by
    rw [List.filter_eq_nil_iff]
    intro p hp hpd
    rw [decide_eq_true_eq] at hpd
    exact hfp p hp hpd
  rw [e, List.nil_append, List.filter_cons, List.filter_cons, List.filter_nil]
  rw [if_pos (decide_eq_true rfl), if_pos (decide_eq_true rfl)]

/-- Witness for C7 at a concrete store: accepting the pending request
1→2 creates direct room 1 whose participant rows are exactly users
1 and 2. -/
theorem c7_accept_creates_dm_room_witness :
    (updateConnectionStatus c7Db 0 ConnStatus.accepted).chat_rooms =
      c7Db.chat_rooms ++ [⟨1, none, RoomType.direct, some 1⟩] ∧
    ((updateConnectionStatus c7Db 0 ConnStatus.accepted).chat_participants.filter
      (fun p => decide (p.chat_room_id = 1))) = [⟨1, 1⟩, ⟨1, 2⟩] :=
  ⟨(c7_accept_creates_dm_room c7Db 0 ⟨0, 1, 2, ConnStatus.pending⟩
      (by decide) (by decide) (by decide)
      (fun p hp => absurd hp (List.not_mem_nil p))).1,
   (c7_accept_creates_dm_room c7Db 0 ⟨0, 1, 2, ConnStatus.pending⟩
      (by decide) (by decide) (by decide)
      (fun p hp => absurd hp (List.not_mem_nil p))).2.2⟩

lemma chat_participants_insert_campus_ok (db : DB) (uid rid : Nat)
    (hnodupe : ¬ db.chat_participants.any
      (fun p => decide (p.chat_room_id = rid ∧ p.user_id = uid)) = true)
    (hioc : is_open_or_campus_room db rid = true) :
    chat_participants_insert db uid rid uid =
      Except.ok { db with chat_participants := db.chat_participants ++ [⟨rid, uid⟩] } := by
  have hcond : ((decide (uid = uid)
      && (is_open_or_campus_room db rid
        || user_can_access_chat_room db uid rid
        || db.chat_rooms.any (fun r =>
             decide (r.id = rid ∧ r.type = RoomType.direct ∧ r.created_by = some uid))))
    || db.chat_rooms.any (fun r =>
         decide (r.id = rid ∧ r.type = RoomType.direct ∧ r.created_by = some uid))) =
      true := by
    rw [hioc, decide_eq_true rfl, Bool.true_or, Bool.true_or, Bool.true_and,
      Bool.true_or]
  unfold chat_participants_insert
  rw [if_neg hnodupe, if_pos hcond]

/-- C8: getOrCreateCampusRoom (the migration seed followed by the client
join) is idempotent: starting from a store with at most one campus room,
afterwards exactly one campus room exists (if none existed the seed
created exactly one, and a second call creates no further campus room —
it leaves the store entirely unchanged), and the requesting user ends up
with a participant record for the campus room. -/
theorem c8_getOrCreateCampusRoom (db : DB) (uid : Nat)
    (hone : (campusRoomQuery db).length ≤ 1)
    (hfp : ∀ p ∈ db.chat_participants, p.chat_room_id ≠ db.nextId) :
    (campusRoomQuery (getOrCreateCampusRoom db uid)).length = 1 ∧
    getOrCreateCampusRoom (getOrCreateCampusRoom db uid) uid =
      getOrCreateCampusRoom db uid ∧
    (∃ room ∈ campusRoomQuery (getOrCreateCampusRoom db uid),
      (⟨room.id, uid⟩ : ChatParticipant) ∈
        (getOrCreateCampusRoom db uid).chat_participants) := by
  cases hq : campusRoomQuery db with
  | nil =>
    have hqf : db.chat_rooms.filter (fun r => decide (r.type = RoomType.campus)) = [] :=
      hq
    have hanyn : ¬ db.chat_rooms.any (fun r => decide (r.type = RoomType.campus)) = true := by
      intro hc
      rw [List.any_eq_true] at hc
      obtain ⟨r, hr, hrd⟩ := hc
      rw [List.filter_eq_nil_iff] at hqf
      exact hqf r hr hrd
    have hseed : seedCampusRoom db =
        { db with
          chat_rooms := db.chat_rooms ++
            [⟨db.nextId, some "Campus General Chat", RoomType.campus, none⟩],
          nextId := db.nextId + 1 } := by
      unfold seedCampusRoom
      rw [if_neg hanyn]
    have hmemf : ¬ db.chat_participants.any
        (fun p => decide (p.chat_room_id = db.nextId ∧ p.user_id = uid)) = true := by
      intro hc
      rw [List.any_eq_true] at hc
      obtain ⟨p, hp, hpd⟩ := hc
      rw [decide_eq_true_eq] at hpd
      exact hfp p hp hpd.1
    have hqs : campusRoomQuery
        { db with
          chat_rooms := db.chat_rooms ++
            [⟨db.nextId, some "Campus General Chat", RoomType.campus, none⟩],
          nextId := db.nextId + 1 } =
        [⟨db.nextId, some "Campus General Chat", RoomType.campus, none⟩] := by
      show (db.chat_rooms ++
        [(⟨db.nextId, some "Campus General Chat", RoomType.campus, none⟩ : ChatRoom)]).filter
          (fun r => decide (r.type = RoomType.campus)) = _
      rw [List.filter_append, hqf, List.nil_append, List.filter_cons, List.filter_nil]
      rw [if_pos (decide_eq_true rfl)]
    have hioc : is_open_or_campus_room
        { db with
          chat_rooms := db.chat_rooms ++
            [⟨db.nextId, some "Campus General Chat", RoomType.campus, none⟩],
          nextId := db.nextId + 1 } db.nextId = true :=
      List.any_eq_true.mpr
        ⟨⟨db.nextId, some "Campus General Chat", RoomType.campus, none⟩,
         List.mem_append_right _ (List.mem_singleton.mpr rfl),
         decide_eq_true ⟨rfl, Or.inl rfl⟩⟩
    have hins := chat_participants_insert_campus_ok
        { db with
          chat_rooms := db.chat_rooms ++
            [⟨db.nextId, some "Campus General Chat", RoomType.campus, none⟩],
          nextId := db.nextId + 1 } uid db.nextId hmemf hioc
    have hpost : getOrCreateCampusRoom db uid =
        { db with
          chat_rooms := db.chat_rooms ++
            [⟨db.nextId, some "Campus General Chat", RoomType.campus, none⟩],
          chat_participants := db.chat_participants ++ [⟨db.nextId, uid⟩],
          nextId := db.nextId + 1 } := by
      unfold getOrCreateCampusRoom
      rw [hseed]
      unfold initializeCampusChat
      rw [hqs]
      show (if db.chat_participants.any
          (fun p => decide (p.chat_room_id = db.nextId ∧ p.user_id = uid))
        then ({ db with
          chat_rooms := db.chat_rooms ++
            [(⟨db.nextId, some "Campus General Chat", RoomType.campus, none⟩ : ChatRoom)],
          nextId := db.nextId + 1 } : DB)
        else match chat_participants_insert
            { db with
              chat_rooms := db.chat_rooms ++
                [(⟨db.nextId, some "Campus General Chat", RoomType.campus, none⟩ : ChatRoom)],
              nextId := db.nextId + 1 } uid db.nextId uid with
          | Except.ok db2 => db2
          | Except.error _ =>
            ({ db with
              chat_rooms := db.chat_rooms ++
                [(⟨db.nextId, some "Campus General Chat", RoomType.campus, none⟩ : ChatRoom)],
              nextId := db.nextId + 1 } : DB)) = _
      rw [if_neg hmemf, hins]
    have hq2 : campusRoomQuery
        { db with
          chat_rooms := db.chat_rooms ++
            [⟨db.nextId, some "Campus General Chat", RoomType.campus, none⟩],
          chat_participants := db.chat_participants ++ [⟨db.nextId, uid⟩],
          nextId := db.nextId + 1 } =
        [⟨db.nextId, some "Campus General Chat", RoomType.campus, none⟩] := hqs
    have hany2 : ({ db with
        chat_rooms := db.chat_rooms ++
          [⟨db.nextId, some "Campus General Chat", RoomType.campus, none⟩],
        chat_participants := db.chat_participants ++ [⟨db.nextId, uid⟩],
        nextId := db.nextId + 1 } : DB).chat_rooms.any
        (fun r => decide (r.type = RoomType.campus)) = true :=
      List.any_eq_true.mpr
        ⟨⟨db.nextId, some "Campus General Chat", RoomType.campus, none⟩,
         List.mem_append_right _ (List.mem_singleton.mpr rfl),
         decide_eq_true rfl⟩
    have hmem2 : ({ db with
        chat_rooms := db.chat_rooms ++
          [⟨db.nextId, some "Campus General Chat", RoomType.campus, none⟩],
        chat_participants := db.chat_participants ++ [⟨db.nextId, uid⟩],
        nextId := db.nextId + 1 } : DB).chat_participants.any
        (fun p => decide (p.chat_room_id = db.nextId ∧ p.user_id = uid)) = true :=
      List.any_eq_true.mpr
        ⟨⟨db.nextId, uid⟩, List.mem_append_right _ (List.mem_singleton.mpr rfl),
         decide_eq_true ⟨rfl, rfl⟩⟩
    refine ⟨?_, ?_, ?_⟩
    · rw [hpost, hq2]
      rfl
    · rw [hpost]
      unfold getOrCreateCampusRoom
      have hseed2 : seedCampusRoom
          { db with
            chat_rooms := db.chat_rooms ++
              [⟨db.nextId, some "Campus General Chat", RoomType.campus, none⟩],
            chat_participants := db.chat_participants ++ [⟨db.nextId, uid⟩],
            nextId := db.nextId + 1 } =
          { db with
            chat_rooms := db.chat_rooms ++
              [⟨db.nextId, some "Campus General Chat", RoomType.campus, none⟩],
            chat_participants := db.chat_participants ++ [⟨db.nextId, uid⟩],
            nextId := db.nextId + 1 } := by
        unfold seedCampusRoom
        rw [if_pos hany2]
      rw [hseed2]
      unfold initializeCampusChat
      rw [hq2]
      show (if ({ db with
          chat_rooms := db.chat_rooms ++
            [⟨db.nextId, some "Campus General Chat", RoomType.campus, none⟩],
          chat_participants := db.chat_participants ++ [⟨db.nextId, uid⟩],
          nextId := db.nextId + 1 } : DB).chat_participants.any
          (fun p => decide (p.chat_room_id = db.nextId ∧ p.user_id = uid))
        then _ else _) = _
      rw [if_pos hmem2]
    · refine ⟨⟨db.nextId, some "Campus General Chat", RoomType.campus, none⟩, ?_, ?_⟩
      · rw [hpost, hq2]
        exact List.mem_singleton.mpr rfl
      · rw [hpost]
        exact List.mem_append_right _ (List.mem_singleton.mpr rfl)
  | cons room t =>
    cases t with
    | cons r2 t2 =>
      rw [hq, List.length_cons, List.length_cons] at hone
      omega
    | nil =>
      have hroommem : room ∈ db.chat_rooms ∧
          decide (room.type = RoomType.campus) = true := by
        have : room ∈ campusRoomQuery db := by
          rw [hq]
          exact List.mem_singleton.mpr rfl
        exact List.mem_filter.mp this
      have hany : db.chat_rooms.any (fun r => decide (r.type = RoomType.campus)) = true :=
        List.any_eq_true.mpr ⟨room, hroommem.1, hroommem.2⟩
      have hseed : seedCampusRoom db = db := by
        unfold seedCampusRoom
        rw [if_pos hany]
      have hioc : is_open_or_campus_room db room.id = true :=
        List.any_eq_true.mpr ⟨room, hroommem.1,
          decide_eq_true ⟨rfl, Or.inl (of_decide_eq_true hroommem.2)⟩⟩
      by_cases hmem : db.chat_participants.any
          (fun p => decide (p.chat_room_id = room.id ∧ p.user_id = uid)) = true
      · have hpost : getOrCreateCampusRoom db uid = db := by
          unfold getOrCreateCampusRoom
          rw [hseed]
          unfold initializeCampusChat
          rw [hq]
          show (if db.chat_participants.any
              (fun p => decide (p.chat_room_id = room.id ∧ p.user_id = uid))
            then db
            else match chat_participants_insert db uid room.id uid with
              | Except.ok db2 => db2
              | Except.error _ => db) = db
          rw [if_pos hmem]
        refine ⟨?_, ?_, ?_⟩
        · rw [hpost, hq]
          rfl
        · rw [hpost]
          exact hpost
        · refine ⟨room, ?_, ?_⟩
          · rw [hpost, hq]
            exact List.mem_singleton.mpr rfl
          · rw [hpost]
            rw [List.any_eq_true] at hmem
            obtain ⟨p, hp, hpd⟩ := hmem
            rw [decide_eq_true_eq] at hpd
            have : p = (⟨room.id, uid⟩ : ChatParticipant) := by
              cases p
              simp only at hpd
              simp only [ChatParticipant.mk.injEq]
              exact hpd
            rw [← this]
            exact hp
      · have hins := chat_participants_insert_campus_ok db uid room.id hmem hioc
        have hpost : getOrCreateCampusRoom db uid =
            { db with chat_participants := db.chat_participants ++ [⟨room.id, uid⟩] } := by
          unfold getOrCreateCampusRoom
          rw [hseed]
          unfold initializeCampusChat
          rw [hq]
          show (if db.chat_participants.any
              (fun p => decide (p.chat_room_id = room.id ∧ p.user_id = uid))
            then db
            else match chat_participants_insert db uid room.id uid with
              | Except.ok db2 => db2
              | Except.error _ => db) = _
          rw [if_neg hmem, hins]
        have hq2 : campusRoomQuery
            { db with chat_participants := db.chat_participants ++ [⟨room.id, uid⟩] } =
            [room] := hq
        have hany2 : ({ db with
            chat_participants := db.chat_participants ++ [⟨room.id, uid⟩] } : DB).chat_rooms.any
            (fun r => decide (r.type = RoomType.campus)) = true := hany
        have hmem2 : ({ db with
            chat_participants := db.chat_participants ++ [⟨room.id, uid⟩] } : DB).chat_participants.any
            (fun p => decide (p.chat_room_id = room.id ∧ p.user_id = uid)) = true :=
          List.any_eq_true.mpr
            ⟨⟨room.id, uid⟩, List.mem_append_right _ (List.mem_singleton.mpr rfl),
             decide_eq_true ⟨rfl, rfl⟩⟩
        refine ⟨?_, ?_, ?_⟩
        · rw [hpost, hq2]
          rfl
        · rw [hpost]
          unfold getOrCreateCampusRoom
          have hseed2 : seedCampusRoom
              { db with chat_participants := db.chat_participants ++ [⟨room.id, uid⟩] } =
              { db with chat_participants := db.chat_participants ++ [⟨room.id, uid⟩] } := by
            unfold seedCampusRoom
            rw [if_pos hany2]
          rw [hseed2]
          unfold initializeCampusChat
          rw [hq2]
          show (if ({ db with
              chat_participants := db.chat_participants ++ [⟨room.id, uid⟩] } : DB).chat_participants.any
              (fun p => decide (p.chat_room_id = room.id ∧ p.user_id = uid))
            then _ else _) = _
          rw [if_pos hmem2]
        · refine ⟨room, ?_, ?_⟩
          · rw [hpost, hq2]
            exact List.mem_singleton.mpr rfl
          · rw [hpost]
            exact List.mem_append_right _ (List.mem_singleton.mpr rfl)

/-- Witness for C8 at a concrete store: starting from an empty store,
one call leaves exactly one campus room, a second call changes nothing,
and user 1 holds a participant record for the campus room. -/
theorem c8_getOrCreateCampusRoom_witness :
    (campusRoomQuery (getOrCreateCampusRoom emptyDB 1)).length = 1 ∧
    getOrCreateCampusRoom (getOrCreateCampusRoom emptyDB 1) 1 =
      getOrCreateCampusRoom emptyDB 1 ∧
    (∃ room ∈ campusRoomQuery (getOrCreateCampusRoom emptyDB 1),
      (⟨room.id, 1⟩ : ChatParticipant) ∈
        (getOrCreateCampusRoom emptyDB 1).chat_participants) :=
  c8_getOrCreateCampusRoom emptyDB 1 (by decide)
    (fun p hp => absurd hp (List.not_mem_nil p))

end DCN
